import Mathlib

/-!
Verification development for the `gopherburrow/mux` URL multiplexer
(`src/mux.go` plus its helper file with `searchRange` and `splitPathSegs`).

The Go code is shallowly embedded: strings are Lean `String`s (Go compares
byte-wise; all inputs considered here are ASCII, where byte order and
code-point order coincide), Go slices are `List`s, Go maps are association
lists, `http.Handler` values are opaque tokens, and the three-way `int`
comparators become `Int`-valued functions.  `url.Parse` itself (Go standard
library, not part of this repository) is not embedded: routes are built from
the already-split URL parts (method, scheme, host, path string, query
key/value list), exactly the data `newMuxRoute` reads off the parsed URL.
Every validation that `newMuxRoute` performs on those parts is embedded.
-/

namespace GoMux

/-! ## Byte-wise string comparison (Go `strings.Compare`) -/

/-- Three-way comparison of character lists, mirroring Go's byte-wise
`strings.Compare` (identical to code-point order on ASCII input). -/
def cmpChars : List Char → List Char → Int
  | [], [] => 0
  | [], _ :: _ => -1
  | _ :: _, [] => 1
  | a :: as, b :: bs =>
    if a < b then -1 else if b < a then 1 else cmpChars as bs

/-- Go `strings.Compare`. -/
def cmpStr (a b : String) : Int := cmpChars a.data b.data

/-- Go `<` on strings, as a Bool. -/
def strLt (a b : String) : Bool := cmpStr a b = -1

/-! ## Path-segment helpers (`splitPathSegs`, variable-segment syntax) -/

def isSlash (c : Char) : Bool := c = '/'

def isBrace (c : Char) : Bool := c = '{' || c = '}'

/-- ASCII approximation of Go `unicode.IsSpace` (all inputs here are ASCII). -/
def isSpaceChar (c : Char) : Bool :=
  c = ' ' || c = '\t' || c = '\n' || c = '\r' || c = '\x0b' || c = '\x0c'

/-- Go `strings.Trim(s, cutset)` specialised to a character predicate:
drop matching characters from both ends. -/
def trimChars (p : Char → Bool) (s : String) : String :=
  ⟨((s.data.dropWhile p).reverse.dropWhile p).reverse⟩

/-- Go `strings.Split(s, "/")` on the character list (splitting on every
slash, empty input giving one empty field). -/
def splitSlash : List Char → List String
  | [] => [""]
  | c :: rest =>
    if c = '/' then "" :: splitSlash rest
    else
      match splitSlash rest with
      | [] => [⟨[c]⟩]
      | s :: ss => ⟨c :: s.data⟩ :: ss

/-- `splitPathSegs` from the helper file: trim the slashes at both ends,
split on `/`, and turn the single empty segment into the empty list. -/
def splitPathSegs (path : String) : List String :=
  let segs := splitSlash (trimChars isSlash path).data
  if segs = [""] then [] else segs

/-- Go `strings.Join(segs, "/")` as used by `PathVars`. -/
def joinSlash : List String → String
  | [] => ""
  | [s] => s
  | s :: rest => s ++ "/" ++ joinSlash rest

/-- A path segment of the form `{...}`: Go
`strings.HasPrefix(v, "{") && strings.HasSuffix(v, "}")`. -/
def isVarSeg (s : String) : Bool :=
  s.data.head? = some '{' && s.data.getLast? = some '}'

/-- The variable name inside a `{...}` segment:
Go `strings.TrimSpace(strings.Trim(v, "{}"))`. -/
def varName (s : String) : String :=
  trimChars isSpaceChar (trimChars isBrace s)

/-! ## Query routes (`queryEntry`, `queryRoute`, `newQueryRoute`) -/

/-- One query parameter test: a name together with a (possibly empty) value.
An empty value is a presence test, a nonempty value a value test. -/
structure queryEntry where
  name : String
  value : String
deriving DecidableEq

/-- A sorted collection of query entries (`queryRoute` in the source). -/
def queryRoute := List queryEntry

instance : DecidableEq queryRoute :=
  inferInstanceAs (DecidableEq (List queryEntry))

/-- Non-strict version of the source's `queryRoute.Less` sort order:
by name, then by value. -/
def qLE (a b : queryEntry) : Bool :=
  strLt a.name b.name || (a.name = b.name && !(strLt b.value a.value))

/-- Ordered insertion of a query entry (used to model `sort.Sort`). -/
def qInsert (x : queryEntry) : List queryEntry → List queryEntry
  | [] => [x]
  | y :: ys => if qLE x y then x :: y :: ys else y :: qInsert x ys

/-- Sorting a query entry list by (name, value).  The source uses
`sort.Sort`, which produces a `Less`-sorted permutation; because entries
that are equivalent under the order are equal records, the sorted
permutation is unique, so insertion sort computes the same list. -/
def sortQuery : List queryEntry → List queryEntry
  | [] => []
  | x :: xs => qInsert x (sortQuery xs)

/-- Adjacent-pairs sortedness check for query entry lists. -/
def querySorted : List queryEntry → Bool
  | [] => true
  | [_] => true
  | a :: b :: rest => qLE a b && querySorted (b :: rest)

/-- Error values returned by the mux (the `Err...` variables). -/
inductive MuxErr where
  | handlerMustBeNotNil
  | methodMustBeValid
  | routeMustExist
  | routeMustNotConflict
  | invalidQueryRoute
  | invalidPathVar
  | patternMustBeValid
deriving DecidableEq

/-- The per-parameter validation loop of `newQueryRoute`: walk this name's
values carrying the `alreadyHavePresenceTest` / `alreadyHaveValueTest`
flags, collecting an entry per value, failing on a mixed test. -/
def addValues (name : String) :
    List String → Bool → Bool → Except MuxErr (List queryEntry)
  | [], _, _ => .ok []
  | v :: vs, havePresence, haveValue =>
    if havePresence then .error .invalidQueryRoute
    else if v = "" then
      if haveValue then .error .invalidQueryRoute
      else
        match addValues name vs true haveValue with
        | .error e => .error e
        | .ok rest => .ok ({ name := name, value := v } :: rest)
    else
      match addValues name vs havePresence true with
      | .error e => .error e
      | .ok rest => .ok ({ name := name, value := v } :: rest)

/-- The outer loop of `newQueryRoute` over the `url.Values` map
(modelled as an association list of names to value lists). -/
def collectEntries : List (String × List String) → Except MuxErr (List queryEntry)
  | [] => .ok []
  | (n, vs) :: rest =>
    match addValues n vs false false with
    | .error e => .error e
    | .ok es =>
      match collectEntries rest with
      | .error e => .error e
      | .ok rs => .ok (es ++ rs)

/-- `newQueryRoute`: validate every parameter's values, then sort the
collected entries by (name, value). -/
def newQueryRoute (params : List (String × List String)) :
    Except MuxErr queryRoute :=
  match collectEntries params with
  | .error e => .error e
  | .ok es => .ok (sortQuery es)

/-! ## `queryRoute.Acceptable` -/

/-- The request's query parameters flattened into entries
(before sorting), as `Acceptable` builds them from `url.Values`. -/
def reqEntries : List (String × List String) → List queryEntry
  | [] => []
  | (n, vs) :: rest => vs.map (fun v => { name := n, value := v }) ++ reqEntries rest

/-- The two-pointer merge loop of `Acceptable`, with the
`routeParamAlreadyUsed` flag.  The loop always terminates because each
iteration advances one of the two pointers; the fuel argument bounds the
iteration count (`route.length + reqs.length + 1` always suffices) and
keeps the definition kernel-computable. -/
def acceptableLoopF : Nat → List queryEntry → List queryEntry → Bool → Bool
  | 0, _, _, _ => false
  | _ + 1, [], _, _ => true
  | _ + 1, _ :: rt, [], used => used && rt = []
  | fuel + 1, rp :: rt, qp :: qt, used =>
    if strLt qp.name rp.name ||
        (rp.name = qp.name && rp.value ≠ "" && strLt qp.value rp.value) then
      acceptableLoopF fuel (rp :: rt) qt used
    else if rp.name = qp.name && (rp.value = "" || rp.value = qp.value) then
      acceptableLoopF fuel (rp :: rt) qt true
    else if used then
      acceptableLoopF fuel rt (qp :: qt) false
    else false

/-- `queryRoute.Acceptable`: sort the request's query entries and run the
merge loop; accept exactly when every route entry was consumed. -/
def acceptableQ (route : List queryEntry) (reqQuery : List (String × List String)) : Bool :=
  let reqs := sortQuery (reqEntries reqQuery)
  acceptableLoopF (route.length + reqs.length + 1) route reqs false

/-! ## Routes (`muxRoute`, `newMuxRoute` after URL parsing) -/

/-- A parsed route (`muxRoute`): method, scheme, host, path segments,
variable-name-to-segment-index map, query route. -/
structure muxRoute where
  method : String
  scheme : String
  host : String
  path : List String
  vars : List (String × Nat)
  query : List queryEntry
deriving DecidableEq

/-- `containsString` from the helper file. -/
def containsString : List String → String → Bool
  | [], _ => false
  | x :: xs, v => if x = v then true else containsString xs v

/-- `defaultAllowedHTTPMethods` in source order. -/
def allowedMethods : List String :=
  ["PUT", "GET", "HEAD", "OPTIONS", "POST", "PATCH", "DELETE", "CONNECT", "TRACE"]

/-- `defaultAllowedSchemes`. -/
def allowedSchemes : List String := ["http", "https"]

/-- The variable-extraction loop of `newMuxRoute`: for each `{...}` segment,
validate the trimmed name (nonempty, `*` only in the last segment, no
duplicates) and record its index. -/
def extractVarsAux (lastSeg : Nat) :
    List String → Nat → List (String × Nat) → Except MuxErr (List (String × Nat))
  | [], _, acc => .ok acc
  | v :: rest, i, acc =>
    if !(isVarSeg v) then extractVarsAux lastSeg rest (i + 1) acc
    else
      let k := varName v
      if k = "" then .error .invalidPathVar
      else if k = "*" && i ≠ lastSeg then .error .invalidPathVar
      else if (acc.lookup k).isSome then .error .invalidPathVar
      else extractVarsAux lastSeg rest (i + 1) (acc ++ [(k, i)])

def extractVars (pathSegments : List String) : Except MuxErr (List (String × Nat)) :=
  extractVarsAux (pathSegments.length - 1) pathSegments 0 []

/-- `newMuxRoute` after `url.Parse`: the method/scheme/host validations,
path splitting, variable extraction and query-route construction.  (The
string-level checks — non-empty pattern, absolute URL, parse success —
happen before any of this and also return before any table access.) -/
def newMuxRouteParts (method scheme host pathStr : String)
    (query : List (String × List String)) : Except MuxErr muxRoute :=
  if !(containsString allowedMethods method) then .error .methodMustBeValid
  else if !(containsString allowedSchemes scheme) then .error .patternMustBeValid
  else if host = "" then .error .patternMustBeValid
  else if host.data.head? = some ':' then .error .patternMustBeValid
  else
    let segs := splitPathSegs pathStr
    match extractVars segs with
    | .error e => .error e
    | .ok vars =>
      match newQueryRoute query with
      | .error e => .error e
      | .ok q =>
        .ok { method := method, scheme := scheme, host := host,
              path := segs, vars := vars, query := q }

/-! ## The three comparators -/

/-- `compareMethodSchemeHost`. -/
def compareMethodSchemeHost (m1 m2 s1 s2 h1 h2 : String) : Int :=
  if cmpStr m1 m2 ≠ 0 then cmpStr m1 m2
  else if cmpStr s1 s2 ≠ 0 then cmpStr s1 s2
  else if cmpStr h1 h2 ≠ 0 then cmpStr h1 h2
  else 0

/-- The path loop of `compareDynamicRoutes` together with the final length
tie-break.  `some r` models the function returning `r` from inside the
loop (a final `{*}` on either side returns 0; a variable segment on
exactly one side returns 0; two unequal literal segments return their
string comparison) or from the nonzero length tie-break after it; `none`
means the loop finished with equal path lengths, the one case in which
control in Go falls through to the query comparison.  (Two variable
segments, or two equal literals, continue the loop.) -/
def dynPathCmp : List String → List String → Option Int
  | [], [] => none
  | [], l2 => some (-(l2.length : Int))
  | l1, [] => some (l1.length : Int)
  | s1 :: t1, s2 :: t2 =>
    if (t1.isEmpty && s1 = "{*}") || (t2.isEmpty && s2 = "{*}") then some 0
    else if isVarSeg s1 ≠ isVarSeg s2 then some 0
    else if isVarSeg s1 then dynPathCmp t1 t2
    else if cmpStr s1 s2 ≠ 0 then some (cmpStr s1 s2)
    else dynPathCmp t1 t2

/-- The query loop of `compareDynamicRoutes` (run on equal-length lists):
names compare as strings; a presence test on either side matches any value
for that name; two value tests compare as strings. -/
def dynQueryEntriesCmp : List queryEntry → List queryEntry → Int
  | [], _ => 0
  | _, [] => 0
  | e1 :: t1, e2 :: t2 =>
    if cmpStr e1.name e2.name ≠ 0 then cmpStr e1.name e2.name
    else if e1.value = "" || e2.value = "" then dynQueryEntriesCmp t1 t2
    else if cmpStr e1.value e2.value ≠ 0 then cmpStr e1.value e2.value
    else dynQueryEntriesCmp t1 t2

/-- `compareDynamicRoutes`: the registration-time comparator whose zeros
are the conflicts.  An early return from the path loop (`some r`,
including its `return 0` cases) is the function's result; only when the
loop runs off the end of both equal-length paths (`none`) does the query
comparison run. -/
def compareDynamicRoutes (r1 r2 : muxRoute) : Int :=
  let msh := compareMethodSchemeHost r1.method r2.method r1.scheme r2.scheme r1.host r2.host
  if msh ≠ 0 then msh
  else
    match dynPathCmp r1.path r2.path with
    | some r => r
    | none =>
      let q : Int := (r2.query.length : Int) - (r1.query.length : Int)
      if q ≠ 0 then q
      else dynQueryEntriesCmp r1.query r2.query

/-- The path loop of `compareStaticRoutes` with its length tie-break:
segments compare as raw text, brace syntax included. -/
def staticPathCmp : List String → List String → Int
  | [], l2 => -(l2.length : Int)
  | l1, [] => (l1.length : Int)
  | s1 :: t1, s2 :: t2 =>
    if cmpStr s1 s2 ≠ 0 then cmpStr s1 s2 else staticPathCmp t1 t2

/-- The query loop of `compareStaticRoutes`: names then values, with no
presence/value normalisation. -/
def staticQueryEntriesCmp : List queryEntry → List queryEntry → Int
  | [], _ => 0
  | _, [] => 0
  | e1 :: t1, e2 :: t2 =>
    if cmpStr e1.name e2.name ≠ 0 then cmpStr e1.name e2.name
    else if cmpStr e1.value e2.value ≠ 0 then cmpStr e1.value e2.value
    else staticQueryEntriesCmp t1 t2

/-- `compareStaticRoutes`: the removal-time literal comparator. -/
def compareStaticRoutes (r1 r2 : muxRoute) : Int :=
  let msh := compareMethodSchemeHost r1.method r2.method r1.scheme r2.scheme r1.host r2.host
  if msh ≠ 0 then msh
  else
    let p := staticPathCmp r1.path r2.path
    if p ≠ 0 then p
    else
      let q : Int := (r2.query.length : Int) - (r1.query.length : Int)
      if q ≠ 0 then q
      else staticQueryEntriesCmp r1.query r2.query

/-- An incoming request as the mux reads it: method, whether the transport
is TLS (`r.TLS != nil`), `r.Host`, `r.URL.Path` and `r.URL.RawQuery`,
plus the parsed query values `r.URL.Query()`. -/
structure Request where
  method : String
  tls : Bool
  host : String
  urlPath : String
  rawQuery : String
  query : List (String × List String)

/-- `req.URL.RequestURI()` for a non-opaque URL with nonempty path and no
escaping: the path, then `?` and the raw query when the query is nonempty. -/
def requestURI (r : Request) : String :=
  if r.rawQuery = "" then r.urlPath else r.urlPath ++ "?" ++ r.rawQuery

/-- The path loop of `compareRequestRoute` with its length tie-break: a
final `{*}` route segment matches (0), a variable route segment skips the
request segment, literal segments compare as strings. -/
def reqPathCmp : List String → List String → Int
  | [], l2 => -(l2.length : Int)
  | l1, [] => (l1.length : Int)
  | s1 :: t1, s2 :: t2 =>
    if t2.isEmpty && s2 = "{*}" then 0
    else if isVarSeg s2 then reqPathCmp t1 t2
    else if cmpStr s1 s2 ≠ 0 then cmpStr s1 s2
    else reqPathCmp t1 t2

/-- `compareRequestRoute`: the dispatch-time comparator.  Note the source
splits `req.URL.RequestURI()` — not `req.URL.Path` — into segments. -/
def compareRequestRoute (req : Request) (route : muxRoute) : Int :=
  let scheme := if req.tls then "https" else "http"
  let msh := compareMethodSchemeHost req.method route.method scheme route.scheme
      req.host route.host
  if msh ≠ 0 then msh
  else reqPathCmp (splitPathSegs (requestURI req)) route.path

/-! ## `searchRange` (Go `sort.Search` twice) -/

/-- Go `sort.Search`'s binary-search loop (`for i < j { h := (i+j)/2; ... }`).
The loop halves `j - i` each iteration, so it runs at most `j - i` times;
the fuel argument (always called with at least that) makes the definition
structurally recursive and kernel-computable. -/
def goSearchAux (f : Nat → Bool) : Nat → Nat → Nat → Nat
  | 0, i, _ => i
  | fuel + 1, i, j =>
    if i < j then
      let h := (i + j) / 2
      if f h then goSearchAux f fuel i h else goSearchAux f fuel (h + 1) j
    else i

/-- Go `sort.Search n f`. -/
def goSearch (n : Nat) (f : Nat → Bool) : Nat := goSearchAux f (n + 1) 0 n

/-- `searchRange` from the helper file: the first index with `fn ≤ 0`, the
first with `fn < 0`, and whether the range between them is nonempty. -/
def searchRange (n : Nat) (fn : Nat → Int) : Nat × Nat × Bool :=
  let lo := goSearch n (fun i => fn i ≤ 0)
  let hi := goSearch n (fun i => fn i < 0)
  (lo, hi, decide (0 < hi - lo))

/-! ## The mux table and its operations -/

/-- An `http.Handler`, opaque to the matching logic. -/
structure Handler where
  id : Nat
deriving DecidableEq

/-- A routing-table entry (`muxEntry`). -/
structure muxEntry where
  route : muxRoute
  handler : Handler
deriving DecidableEq

/-- The mux: its ordered entry list.  (The reader/writer lock and the
not-found fallback handler play no role in the matching logic.) -/
structure Mux where
  entries : List muxEntry
deriving DecidableEq

def defaultRoute : muxRoute :=
  { method := "", scheme := "", host := "", path := [], vars := [], query := [] }

def defaultEntry : muxEntry := { route := defaultRoute, handler := { id := 0 } }

/-- `Mux.Handle` after URL parsing: validate, search with the dynamic
comparator, fail on a nonempty equal range, otherwise splice the new entry
in at the lower bound.  Returns the error (if any) and the table state
after the call. -/
def handleParts (m : Mux) (method scheme host pathStr : String)
    (query : List (String × List String)) (handler : Option Handler) :
    Option MuxErr × Mux :=
  match newMuxRouteParts method scheme host pathStr query with
  | .error e => (some e, m)
  | .ok route =>
    match handler with
    | none => (some .handlerMustBeNotNil, m)
    | some h =>
      let sr := searchRange m.entries.length
        (fun i => compareDynamicRoutes route ((m.entries.getD i defaultEntry).route))
      if sr.2.2 then (some .routeMustNotConflict, m)
      else
        (none, { entries := m.entries.take sr.1 ++
                  { route := route, handler := h } :: m.entries.drop sr.1 })

/-- `Mux.RemoveHandler` after URL parsing: validate, search with the static
comparator, fail when the equal range is empty, otherwise delete the entry
at the lower bound. -/
def removeParts (m : Mux) (method scheme host pathStr : String)
    (query : List (String × List String)) : Option MuxErr × Mux :=
  match newMuxRouteParts method scheme host pathStr query with
  | .error e => (some e, m)
  | .ok route =>
    let sr := searchRange m.entries.length
      (fun i => compareStaticRoutes route ((m.entries.getD i defaultEntry).route))
    if !sr.2.2 then (some .routeMustExist, m)
    else (none, { entries := m.entries.eraseIdx sr.1 })

/-- `Mux.PathVars`: re-run the request-comparator search; on a match, bind
each variable name to the segment of `req.URL.Path` at its stored index
(the final wildcard to the remaining segments joined with `/`).  Go indexes
the segment list directly and panics when the index is out of range; the
model totalises that indexing with `List.getD`. -/
def pathVars (m : Mux) (req : Request) : List (String × String) :=
  let sr := searchRange m.entries.length
    (fun i => compareRequestRoute req ((m.entries.getD i defaultEntry).route))
  if !sr.2.2 then []
  else
    let entry := m.entries.getD sr.1 defaultEntry
    let pathSegs := splitPathSegs req.urlPath
    entry.route.vars.map (fun kv =>
      if kv.1 = "*" then (kv.1, joinSlash (pathSegs.drop kv.2))
      else (kv.1, pathSegs.getD kv.2 ""))

/-! ## Helper lemmas about the comparison primitives -/

theorem str_data_inj {a b : String} (h : a.data = b.data) : a = b := by
  cases a with
  | mk da =>
    cases b with
    | mk db => exact congrArg String.mk h

theorem cmpChars_swap : ∀ as bs : List Char, cmpChars bs as = - cmpChars as bs := by
  intro as
  induction as with
  | nil => intro bs; cases bs <;> simp [cmpChars]
  | cons a as ih =>
    intro bs
    cases bs with
    | nil => simp [cmpChars]
    | cons b bs =>
      rcases lt_trichotomy a b with h | h | h
      · simp [cmpChars, h, lt_asymm h]
      · subst h; simp [cmpChars, lt_irrefl, ih bs]
      · simp [cmpChars, h, lt_asymm h]

theorem cmpChars_eq_zero_iff : ∀ as bs : List Char, cmpChars as bs = 0 ↔ as = bs := by
  intro as
  induction as with
  | nil => intro bs; cases bs <;> simp [cmpChars]
  | cons a as ih =>
    intro bs
    cases bs with
    | nil => simp [cmpChars]
    | cons b bs =>
      rcases lt_trichotomy a b with h | h | h
      · simp [cmpChars, h, ne_of_lt h]
      · subst h; simp [cmpChars, lt_irrefl, ih bs]
      · simp [cmpChars, h, lt_asymm h, (ne_of_lt h).symm]

theorem cmpChars_mem : ∀ as bs : List Char,
    cmpChars as bs = -1 ∨ cmpChars as bs = 0 ∨ cmpChars as bs = 1 := by
  intro as
  induction as with
  | nil => intro bs; cases bs <;> simp [cmpChars]
  | cons a as ih =>
    intro bs
    cases bs with
    | nil => simp [cmpChars]
    | cons b bs =>
      by_cases h1 : a < b
      · simp [cmpChars, h1]
      · by_cases h2 : b < a
        · simp [cmpChars, h1, h2]
        · simpa [cmpChars, h1, h2] using ih bs

theorem strLt_total (a b : String) :
    strLt a b = true ∨ a = b ∨ strLt b a = true := by
  rcases cmpChars_mem a.data b.data with h | h | h
  · exact Or.inl (by simp [strLt, cmpStr, h])
  · exact Or.inr (Or.inl (str_data_inj ((cmpChars_eq_zero_iff _ _).mp h)))
  · refine Or.inr (Or.inr ?_)
    have := cmpChars_swap a.data b.data
    simp [strLt, cmpStr]
    omega

theorem strLt_asymm {a b : String} (h : strLt a b = true) : strLt b a = false := by
  have hs := cmpChars_swap a.data b.data
  simp [strLt, cmpStr] at h ⊢
  omega

theorem strLt_irrefl (a : String) : strLt a a = false := by
  have h : cmpChars a.data a.data = 0 := (cmpChars_eq_zero_iff _ _).mpr rfl
  simp [strLt, cmpStr, h]

theorem cmpStr_self (a : String) : cmpStr a a = 0 :=
  (cmpChars_eq_zero_iff _ _).mpr rfl

theorem compareMethodSchemeHost_self (m s h : String) :
    compareMethodSchemeHost m m s s h h = 0 := by
  simp [compareMethodSchemeHost, cmpStr_self]

theorem qLE_total (a b : queryEntry) : qLE a b = true ∨ qLE b a = true := by
  rcases strLt_total a.name b.name with h | h | h
  · exact Or.inl (by simp [qLE, h])
  · rcases strLt_total b.value a.value with hv | hv | hv
    · exact Or.inr (by simp [qLE, h.symm, strLt_asymm hv])
    · exact Or.inl (by simp [qLE, h, hv, strLt_irrefl])
    · exact Or.inl (by simp [qLE, h, strLt_asymm hv])
  · exact Or.inr (by simp [qLE, h])

theorem querySorted_cons_of (y : queryEntry) (m : List queryEntry)
    (h : querySorted m = true) (hh : ∀ z, m.head? = some z → qLE y z = true) :
    querySorted (y :: m) = true := by
  cases m with
  | nil => rfl
  | cons z zs => simp [querySorted, h, hh z rfl]

theorem querySorted_tail {a : queryEntry} {m : List queryEntry}
    (h : querySorted (a :: m) = true) : querySorted m = true := by
  cases m with
  | nil => rfl
  | cons z zs => simp [querySorted] at h; exact h.2

theorem querySorted_qInsert (x : queryEntry) :
    ∀ l : List queryEntry, querySorted l = true → querySorted (qInsert x l) = true := by
  intro l
  induction l with
  | nil => intro _; rfl
  | cons y ys ih =>
    intro hs
    by_cases hxy : qLE x y = true
    · simpa [qInsert, hxy, querySorted] using hs
    · have hyx : qLE y x = true := by
        rcases qLE_total x y with h | h
        · exact absurd h hxy
        · exact h
      have hins : querySorted (qInsert x ys) = true := ih (querySorted_tail hs)
      have : querySorted (y :: qInsert x ys) = true := by
        refine querySorted_cons_of y _ hins ?_
        intro z hz
        cases ys with
        | nil => simp [qInsert] at hz; subst hz; exact hyx
        | cons w ws =>
          by_cases hxw : qLE x w = true
          · simp [qInsert, hxw] at hz; subst hz; exact hyx
          · simp [qInsert, hxw] at hz
            subst hz
            simp [querySorted] at hs
            exact hs.1
      simpa [qInsert, hxy] using this

theorem querySorted_sortQuery : ∀ l : List queryEntry, querySorted (sortQuery l) = true := by
  intro l
  induction l with
  | nil => rfl
  | cons x xs ih => exact querySorted_qInsert x _ ih

/-! ## Characterising `newQueryRoute`'s validation -/

/-- A value list that passes the per-name validation scan: either no value
is empty (pure value tests), or the list is exactly one empty value
(a pure presence test). -/
def goodVals (vs : List String) : Prop := (∀ v ∈ vs, v ≠ "") ∨ vs = [""]

/-- The claim's wording of an invalid value list: scanning the values in
order encounters a value (empty or not) after an earlier empty value, or
an empty value after an earlier nonempty value. -/
def claimBadValues (vs : List String) : Prop :=
  ∃ i j, i < j ∧ j < vs.length ∧
    (vs.getD i "" = "" ∨ (vs.getD i "" ≠ "" ∧ vs.getD j "" = ""))

theorem addValues_presence_fail (n : String) (vs : List String) (b : Bool)
    (h : vs ≠ []) : addValues n vs true b = .error .invalidQueryRoute := by
  cases vs with
  | nil => exact absurd rfl h
  | cons v t => simp [addValues]

theorem addValues_value_ok (n : String) :
    ∀ vs : List String, "" ∉ vs →
      addValues n vs false true = .ok (vs.map (fun v => { name := n, value := v })) := by
  intro vs
  induction vs with
  | nil => intro _; rfl
  | cons v t ih =>
    intro h
    have hv : ¬ v = "" := by intro hh; exact h (by simp [hh])
    have ht : "" ∉ t := by intro hh; exact h (by simp [hh])
    simp [addValues, hv, ih ht]

theorem addValues_value_fail (n : String) :
    ∀ vs : List String, "" ∈ vs →
      addValues n vs false true = .error .invalidQueryRoute := by
  intro vs
  induction vs with
  | nil => intro h; simp at h
  | cons v t ih =>
    intro h
    by_cases hv : v = ""
    · simp [addValues, hv]
    · have ht : "" ∈ t := by
        rcases List.mem_cons.mp h with h1 | h1
        · exact absurd h1.symm hv
        · exact h1
      simp [addValues, hv, ih ht]

theorem addValues_good_ok (n : String) (vs : List String) (h : goodVals vs) :
    ∃ es, addValues n vs false false = .ok es := by
  rcases h with h | h
  · cases vs with
    | nil => exact ⟨[], rfl⟩
    | cons v t =>
      have hv : ¬ v = "" := h v (by simp)
      have ht : "" ∉ t := fun hm => h "" (by simp [hm]) rfl
      exact ⟨{ name := n, value := v } :: t.map (fun u => { name := n, value := u }),
        by simp [addValues, hv, addValues_value_ok n t ht]⟩
  · subst h; exact ⟨[{ name := n, value := "" }], rfl⟩

theorem addValues_bad_fail (n : String) (vs : List String) (h : ¬ goodVals vs) :
    addValues n vs false false = .error .invalidQueryRoute := by
  cases vs with
  | nil => exact absurd (Or.inl (by simp)) h
  | cons v t =>
    by_cases hv : v = ""
    · subst hv
      have ht : t ≠ [] := by
        intro hh; subst hh; exact h (Or.inr rfl)
      simp [addValues, addValues_presence_fail n t false ht]
    · have ht : "" ∈ t := by
        by_contra hm
        refine h (Or.inl ?_)
        intro u hu
        rcases List.mem_cons.mp hu with h1 | h1
        · subst h1; exact hv
        · intro hh; subst hh; exact hm h1
      simp [addValues, hv, addValues_value_fail n t ht]

theorem collectEntries_good_ok :
    ∀ params : List (String × List String), (∀ p ∈ params, goodVals p.2) →
      ∃ es, collectEntries params = .ok es := by
  intro params
  induction params with
  | nil => intro _; exact ⟨[], rfl⟩
  | cons p rest ih =>
    intro h
    obtain ⟨es, hes⟩ := addValues_good_ok p.1 p.2 (h p (by simp))
    obtain ⟨rs, hrs⟩ := ih (fun q hq => h q (by simp [hq]))
    exact ⟨es ++ rs, by simp [collectEntries, hes, hrs]⟩

theorem collectEntries_bad_fail :
    ∀ params : List (String × List String), (∃ p ∈ params, ¬ goodVals p.2) →
      collectEntries params = .error .invalidQueryRoute := by
  intro params
  induction params with
  | nil => intro h; simp at h
  | cons p rest ih =>
    intro h
    by_cases hp : goodVals p.2
    · obtain ⟨es, hes⟩ := addValues_good_ok p.1 p.2 hp
      have hrest : ∃ q ∈ rest, ¬ goodVals q.2 := by
        rcases h with ⟨q, hq, hbad⟩
        rcases List.mem_cons.mp hq with h1 | h1
        · subst h1; exact absurd hp hbad
        · exact ⟨q, h1, hbad⟩
      simp [collectEntries, hes, ih hrest]
    · simp [collectEntries, addValues_bad_fail p.1 p.2 hp]

theorem claimBadValues_iff (vs : List String) : claimBadValues vs ↔ ¬ goodVals vs := by
  constructor
  · rintro ⟨i, j, hij, hj, hcase⟩
    have hi : i < vs.length := lt_trans hij hj
    have hne : vs ≠ [""] := by
      intro hh
      subst hh
      simp at hj
      omega
    rcases hcase with hc | hc
    · intro hg
      rcases hg with hg | hg
      · have : vs.getD i "" ∈ vs := by
          rw [List.getD_eq_getElem vs "" hi]
          exact List.getElem_mem hi
        exact hg _ this hc
      · exact hne hg
    · intro hg
      rcases hg with hg | hg
      · have : vs.getD j "" ∈ vs := by
          rw [List.getD_eq_getElem vs "" hj]
          exact List.getElem_mem hj
        exact hg _ this hc.2
      · exact hne hg
  · intro hg
    have hex : ∃ v ∈ vs, v = "" := by
      by_contra hall
      push_neg at hall
      exact hg (Or.inl hall)
    have hne : vs ≠ [""] := fun hh => hg (Or.inr hh)
    cases vs with
    | nil => simp at hex
    | cons a t =>
      cases t with
      | nil =>
        obtain ⟨v, hv, hv0⟩ := hex
        simp at hv
        subst hv
        exact absurd (by rw [hv0]) hne
      | cons b u =>
        by_cases ha : a = ""
        · exact ⟨0, 1, by omega, by simp, Or.inl (by simpa using ha)⟩
        · obtain ⟨v, hv, hv0⟩ := hex
          rcases List.mem_cons.mp hv with h1 | h1
          · exact absurd (h1.symm.trans hv0) ha
          · obtain ⟨k, hk, hkv⟩ := List.mem_iff_getElem.mp h1
            refine ⟨0, k + 1, by omega, by simpa using hk, Or.inr ⟨by simpa using ha, ?_⟩⟩
            rw [List.getD_cons_succ, List.getD_eq_getElem (b :: u) "" hk, hkv, hv0]

/-! ## Claim theorems -/

instance decEqExcept {ε α : Type} [DecidableEq ε] [DecidableEq α] :
    DecidableEq (Except ε α) := fun a b =>
  match a, b with
  | .error e, .error f =>
    if h : e = f then .isTrue (by rw [h]) else .isFalse (fun hh => h (Except.error.inj hh))
  | .error _, .ok _ => .isFalse (fun hh => Except.noConfusion hh)
  | .ok _, .error _ => .isFalse (fun hh => Except.noConfusion hh)
  | .ok x, .ok y =>
    if h : x = y then .isTrue (by rw [h]) else .isFalse (fun hh => h (Except.ok.inj hh))

/-- Claim C1's first registration: `GET http://h/p?a&b=c` on the empty
table. -/
def conflictStep1 : Option MuxErr × Mux :=
  handleParts { entries := [] } "GET" "http" "h" "/p"
    [("a", [""]), ("b", ["c"])] (some { id := 1 })

/-- Claim C1's second registration: `GET http://h/p?a=a&b=d`. -/
def conflictStep2 : Option MuxErr × Mux :=
  handleParts conflictStep1.2 "GET" "http" "h" "/p"
    [("a", ["a"]), ("b", ["d"])] (some { id := 2 })

/-- Claim C1's third registration: `GET http://h/p?a=m&b=c`, which
conflicts with the first (the presence test on `a` overlaps its value
test, and both carry `b=c`). -/
def conflictStep3 : Option MuxErr × Mux :=
  handleParts conflictStep2.2 "GET" "http" "h" "/p"
    [("a", ["m"]), ("b", ["c"])] (some { id := 3 })

/-- Claim C2's prior table state `T`: `GET http://h/{z}/a` registered on
the empty table. -/
def roundStep1 : Option MuxErr × Mux :=
  handleParts { entries := [] } "GET" "http" "h" "/{z}/a" [] (some { id := 1 })

/-- Claim C2's registration of `P` = `GET http://h/{y}/b` on `T`. -/
def roundStep2 : Option MuxErr × Mux :=
  handleParts roundStep1.2 "GET" "http" "h" "/{y}/b" [] (some { id := 2 })

/-- Claim C2's removal of `P` in its exact original spelling. -/
def roundStep3 : Option MuxErr × Mux :=
  removeParts roundStep2.2 "GET" "http" "h" "/{y}/b" []

/-- The pattern `GET http://h/a` as a parsed route (claim C4). -/
def routeLitA : muxRoute :=
  { method := "GET", scheme := "http", host := "h",
    path := ["a"], vars := [], query := [] }

/-- A request for `GET http://h/a` with no query string (claim C4). -/
def reqPlainA : Request :=
  { method := "GET", tls := false, host := "h",
    urlPath := "/a", rawQuery := "", query := [] }

/-- The same request with query string `q=1` (claim C4). -/
def reqQueryA : Request :=
  { method := "GET", tls := false, host := "h",
    urlPath := "/a", rawQuery := "q=1", query := [("q", ["1"])] }

/-- A table holding only `GET http://h/parent/{*}` (claim C5). -/
def muxParentWild : Mux :=
  (handleParts { entries := [] } "GET" "http" "h" "/parent/{*}" [] (some { id := 1 })).2

/-- A request for `GET http://h/parent/x/y` (claim C5). -/
def reqParentXY : Request :=
  { method := "GET", tls := false, host := "h",
    urlPath := "/parent/x/y", rawQuery := "", query := [] }

/-- A request for `GET http://h/parent` (claim C5). -/
def reqParentOnly : Request :=
  { method := "GET", tls := false, host := "h",
    urlPath := "/parent", rawQuery := "", query := [] }

/-- A table holding only `GET http://h/{u}/{v}` (claim C10). -/
def muxTwoVars : Mux :=
  (handleParts { entries := [] } "GET" "http" "h" "/{u}/{v}" [] (some { id := 1 })).2

/-- A request with URL path `/x` and raw query `a=b/c` (claim C10): the
raw query contains a slash, so splitting `RequestURI()` yields two
segments while the URL path alone has one. -/
def reqSlashQuery : Request :=
  { method := "GET", tls := false, host := "h",
    urlPath := "/x", rawQuery := "a=b/c", query := [("a", ["b/c"])] }

/-- Claim C1 (code bug): the conflict-freedom invariant fails on a
reachable state.  Registering `GET http://h/p?a&b=c`, then
`GET http://h/p?a=a&b=d`, then `GET http://h/p?a=m&b=c` all succeed
(`Handle` returns no error), yet the third stored route compares equal
(zero) to the first under the dynamic comparator: the dynamic comparator is
not transitive (a presence test on `a` overlaps every value test on `a`),
so the table's dynamic order is not a total order and `sort.Search` misses
the conflicting entry. -/
theorem C1_conflict_invariant_violated :
    conflictStep1.1 = none ∧ conflictStep2.1 = none ∧ conflictStep3.1 = none ∧
    conflictStep3.2.entries.length = 3 ∧
    compareDynamicRoutes (conflictStep3.2.entries.getD 2 defaultEntry).route
      (conflictStep3.2.entries.getD 0 defaultEntry).route = 0 := by
  decide

/-- Claim C2 (code bug): the register/remove round trip fails.  Starting
from the reachable table `[GET http://h/{z}/a]`, registering
`GET http://h/{y}/b` succeeds, but then removing `GET http://h/{y}/b` (its
exact original spelling) reports success while deleting the *other* entry:
the final table differs from the prior state.  The table is ordered by the
dynamic comparator, under which `/{z}/a` sorts before `/{y}/b`, while the
static comparator used by the removal search sorts them the other way
round, so the binary search's sortedness precondition is violated. -/
theorem C2_round_trip_fails :
    roundStep1.1 = none ∧ roundStep2.1 = none ∧ roundStep3.1 = none ∧
    roundStep3.2 ≠ roundStep1.2 := by
  decide

/-- Claim C3 counterexample: the dynamic comparator does *not* continue
past a position where exactly one side's segment is a variable — it
returns zero from inside the loop.  For `GET http://h/{v}/c` versus
`GET http://h/x/d` it yields 0 although continuing would let the later
segments (`c` versus `d`) decide the order as -1 (second conjunct: the
same routes with the variable-vs-literal position removed); and for
`GET http://h/{v}?q=1` versus `GET http://h/x` it yields 0 although
continuing would let the query comparison decide -1 (fourth conjunct:
the same routes with that position removed). -/
theorem C3_counterexample :
    compareDynamicRoutes
      { method := "GET", scheme := "http", host := "h",
        path := ["{v}", "c"], vars := [("v", 0)], query := [] }
      { method := "GET", scheme := "http", host := "h",
        path := ["x", "d"], vars := [], query := [] } = 0 ∧
    compareDynamicRoutes
      { method := "GET", scheme := "http", host := "h",
        path := ["c"], vars := [], query := [] }
      { method := "GET", scheme := "http", host := "h",
        path := ["d"], vars := [], query := [] } = -1 ∧
    compareDynamicRoutes
      { method := "GET", scheme := "http", host := "h",
        path := ["{v}"], vars := [("v", 0)],
        query := [{ name := "q", value := "1" }] }
      { method := "GET", scheme := "http", host := "h",
        path := ["x"], vars := [], query := [] } = 0 ∧
    compareDynamicRoutes
      { method := "GET", scheme := "http", host := "h",
        path := [], vars := [], query := [{ name := "q", value := "1" }] }
      { method := "GET", scheme := "http", host := "h",
        path := [], vars := [], query := [] } = -1 := by
  decide

/-- Claim C3 (corrected): when exactly one side's segment at a path
position is a variable and neither side's segment there is a final
wildcard, `compareDynamicRoutes` returns zero immediately — later
segments, the path-length difference and the query comparison are never
consulted.  Stated at the first path position, for arbitrary tails,
variable maps and query routes on both sides. -/
theorem C3_var_vs_literal_returns_zero (method scheme host s1 s2 : String)
    (t1 t2 : List String) (vars1 vars2 : List (String × Nat))
    (q1 q2 : List queryEntry)
    (hvar : isVarSeg s1 ≠ isVarSeg s2)
    (hw1 : ¬(t1 = [] ∧ s1 = "{*}")) (hw2 : ¬(t2 = [] ∧ s2 = "{*}")) :
    compareDynamicRoutes
      { method := method, scheme := scheme, host := host,
        path := s1 :: t1, vars := vars1, query := q1 }
      { method := method, scheme := scheme, host := host,
        path := s2 :: t2, vars := vars2, query := q2 } = 0 := by
  have h1 : (t1.isEmpty && s1 = "{*}") = false := by
    cases t1 <;> simp_all
  have h2 : (t2.isEmpty && s2 = "{*}") = false := by
    cases t2 <;> simp_all
  simp [compareDynamicRoutes, compareMethodSchemeHost_self, dynPathCmp, h1, h2, hvar]

/-- Witness for C3's corrected theorem at a concrete input whose two
sides carry different query routes (so the zero cannot have come from
the query comparison). -/
theorem C3_var_vs_literal_returns_zero_witness :
    compareDynamicRoutes
      { method := "GET", scheme := "http", host := "h",
        path := ["{v}"], vars := [("v", 0)],
        query := [{ name := "q", value := "1" }] }
      { method := "GET", scheme := "http", host := "h",
        path := ["x"], vars := [], query := [] } = 0 :=
  C3_var_vs_literal_returns_zero "GET" "http" "h" "{v}" "x" [] [] [("v", 0)] []
    [{ name := "q", value := "1" }] [] (by decide) (by decide) (by decide)

/-- Claim C4 (code bug): the dispatch-time request comparator is *not*
query-independent.  The stored pattern `GET http://h/a` matches the
request `GET /a` (comparator zero) but not the same request with query
`q=1` (comparator one): the source splits `req.URL.RequestURI()` — which
appends `?q=1` to the path — into the compared segments, contradicting
ServeHTTP's stated plan of matching on the path alone and testing query
strings afterwards. -/
theorem C4_query_affects_request_comparator :
    newMuxRouteParts "GET" "http" "h" "/a" [] = .ok routeLitA ∧
    reqPlainA.method = reqQueryA.method ∧ reqPlainA.tls = reqQueryA.tls ∧
    reqPlainA.host = reqQueryA.host ∧ reqPlainA.urlPath = reqQueryA.urlPath ∧
    compareRequestRoute reqPlainA routeLitA = 0 ∧
    compareRequestRoute reqQueryA routeLitA = 1 := by
  decide

/-- Claim C5 counterexample: with `GET http://h/parent/{*}` registered,
`PathVars` on a request for `/parent` does *not* bind `*` to the empty
string — the request comparator rejects the shorter path (its length
tie-break yields -1 before the wildcard is reached), so `PathVars` returns
the empty map. -/
theorem C5_counterexample :
    (pathVars muxParentWild reqParentOnly).lookup "*" = none := by
  decide

/-- Claim C5 (corrected): with `GET http://h/parent/{*}` registered,
`PathVars` on `/parent/x/y` binds `*` to `x/y` (remaining segments joined
with `/`), while on `/parent` the pattern does not match at all and
`PathVars` returns the empty map (no `*` binding). -/
theorem C5_wildcard_extraction :
    (pathVars muxParentWild reqParentXY).lookup "*" = some "x/y" ∧
    pathVars muxParentWild reqParentOnly = [] := by
  decide

/-- Claim C6 counterexample: `/fixed/` and `/fixed` do *not* have distinct
static identities.  After registering `GET http://h/fixed/`, removing with
the spelling `GET http://h/fixed` succeeds (no not-found error) and empties
the table. -/
theorem C6_counterexample :
    let m := handleParts { entries := [] } "GET" "http" "h" "/fixed/" [] (some { id := 1 })
    let r := removeParts m.2 "GET" "http" "h" "/fixed" []
    m.1 = none ∧ r.1 = none ∧ r.2.entries = [] := by
  decide

/-- Claim C6 (corrected): `splitPathSegs` trims slashes at both ends, so
`/fixed/` and `/fixed` parse to the *same* route — the same static (and
dynamic) identity.  Removal with either spelling finds the entry
registered under the other, and the two spellings conflict at
registration. -/
theorem C6_trailing_slash_same_identity :
    splitPathSegs "/fixed/" = ["fixed"] ∧ splitPathSegs "/fixed" = ["fixed"] ∧
    newMuxRouteParts "GET" "http" "h" "/fixed/" [] =
      newMuxRouteParts "GET" "http" "h" "/fixed" [] ∧
    (let m := handleParts { entries := [] } "GET" "http" "h" "/fixed/" [] (some { id := 1 })
     let m2 := handleParts m.2 "GET" "http" "h" "/fixed" [] (some { id := 2 })
     m.1 = none ∧ m2.1 = some .routeMustNotConflict) := by
  decide

/-- Claim C7 counterexample: the query route built from `?tag=a&tag=b`
does *not* accept a request query `?tag=b&other=x` — `Acceptable` returns
false, because its merge loop requires every route entry to be matched. -/
theorem C7_counterexample :
    newQueryRoute [("tag", ["a", "b"])] =
      .ok [{ name := "tag", value := "a" }, { name := "tag", value := "b" }] ∧
    acceptableQ [{ name := "tag", value := "a" }, { name := "tag", value := "b" }]
      [("tag", ["b"]), ("other", ["x"])] = false := by
  decide

/-- Claim C7 (corrected): several value-test entries sharing one name are
AND-ed, not OR-ed: the route `?tag=a&tag=b` rejects `?tag=b&other=x` and
rejects `?tag=c`, and accepts only requests carrying both `tag=a` and
`tag=b`; request parameters never named by the route are ignored. -/
theorem C7_query_and_semantics :
    acceptableQ [{ name := "tag", value := "a" }, { name := "tag", value := "b" }]
      [("tag", ["b"]), ("other", ["x"])] = false ∧
    acceptableQ [{ name := "tag", value := "a" }, { name := "tag", value := "b" }]
      [("tag", ["c"])] = false ∧
    acceptableQ [{ name := "tag", value := "a" }, { name := "tag", value := "b" }]
      [("tag", ["a", "b"]), ("other", ["x"])] = true ∧
    acceptableQ [{ name := "tag", value := "a" }]
      [("tag", ["a"]), ("other", ["x"])] = true := by
  decide

/-- Claim C8 (confirmed): `newQueryRoute` fails with the
invalid-query-route error exactly when some parameter name's value list,
scanned in order, has a value (empty or not) after an earlier empty value
or an empty value after an earlier nonempty value; and on success the
resulting entries are sorted by name and then value. -/
theorem C8_query_route_validation (params : List (String × List String)) :
    (newQueryRoute params = .error .invalidQueryRoute ↔
      ∃ p ∈ params, claimBadValues p.2) ∧
    (∀ q, newQueryRoute params = .ok q → querySorted q = true) := by
  constructor
  · constructor
    · intro h
      by_contra hall
      push_neg at hall
      have hgood : ∀ p ∈ params, goodVals p.2 := by
        intro p hp
        by_contra hg
        exact hall p hp ((claimBadValues_iff p.2).mpr hg)
      obtain ⟨es, hes⟩ := collectEntries_good_ok params hgood
      rw [newQueryRoute, hes] at h
      simp at h
    · rintro ⟨p, hp, hbad⟩
      have hc : collectEntries params = .error .invalidQueryRoute :=
        collectEntries_bad_fail params ⟨p, hp, (claimBadValues_iff p.2).mp hbad⟩
      rw [newQueryRoute, hc]
  · intro q hq
    rcases hc : collectEntries params with e | es
    · rw [newQueryRoute, hc] at hq
      simp at hq
    · rw [newQueryRoute, hc] at hq
      simp at hq
      rw [← hq]
      exact querySorted_sortQuery es

/-- Witness for C8 at a concrete input: a successfully built query route
is sorted by (name, value). -/
theorem C8_query_route_validation_witness :
    querySorted [{ name := "b", value := "y" }, { name := "tag", value := "a" }] = true :=
  (C8_query_route_validation [("tag", ["a"]), ("b", ["y"])]).2
    [{ name := "b", value := "y" }, { name := "tag", value := "a" }] (by decide)

/-- Claim C9 (confirmed): `Handle` and `RemoveHandler` are atomic on
error — whenever either returns an error (invalid method, invalid
pattern parts, invalid path variable, invalid query route, missing
handler, conflict, or not-found), the table is exactly what it was before
the call. -/
theorem C9_mutation_atomic (m : Mux) (method scheme host pathStr : String)
    (query : List (String × List String)) (h : Option Handler) :
    ((handleParts m method scheme host pathStr query h).1.isSome →
      (handleParts m method scheme host pathStr query h).2 = m) ∧
    ((removeParts m method scheme host pathStr query).1.isSome →
      (removeParts m method scheme host pathStr query).2 = m) := by
  constructor
  · intro herr
    rcases hroute : newMuxRouteParts method scheme host pathStr query with e | route
    · simp [handleParts, hroute]
    · cases h with
      | none => simp [handleParts, hroute]
      | some hd =>
        simp only [handleParts, hroute] at herr ⊢
        split at herr <;> simp_all
  · intro herr
    rcases hroute : newMuxRouteParts method scheme host pathStr query with e | route
    · simp [removeParts, hroute]
    · simp only [removeParts, hroute] at herr ⊢
      split at herr <;> simp_all

/-- Witness for C9 at concrete inputs: a bad-method `Handle` and a
not-found `RemoveHandler` both leave the empty table unchanged. -/
theorem C9_mutation_atomic_witness :
    (handleParts { entries := [] } "BAD" "http" "h" "/p" [] (some { id := 1 })).2 =
      { entries := [] } ∧
    (removeParts { entries := [] } "GET" "http" "h" "/p" []).2 = { entries := [] } :=
  ⟨(C9_mutation_atomic { entries := [] } "BAD" "http" "h" "/p" [] (some { id := 1 })).1
      (by decide),
   (C9_mutation_atomic { entries := [] } "GET" "http" "h" "/p" [] (some { id := 1 })).2
      (by decide)⟩

/-- Claim C10 (code bug): `PathVars` can index out of bounds.  With
`GET http://h/{u}/{v}` registered, the request with URL path `/x` and raw
query `a=b/c` *matches* (the comparator splits `RequestURI()`, i.e.
`/x?a=b/c`, into two segments, which the two variable segments absorb),
yet variable `v` stores index 1 while `splitPathSegs` of the URL path
`/x` has only one segment — Go's `pathSegs[1]` panics. -/
theorem C10_pathvars_index_out_of_bounds :
    (searchRange muxTwoVars.entries.length (fun i =>
      compareRequestRoute reqSlashQuery ((muxTwoVars.entries.getD i defaultEntry).route))).2.2
      = true ∧
    (muxTwoVars.entries.getD 0 defaultEntry).route.vars.lookup "v" = some 1 ∧
    (splitPathSegs reqSlashQuery.urlPath).length = 1 ∧
    ¬ (1 < (splitPathSegs reqSlashQuery.urlPath).length) := by
  decide

end GoMux
